import Mathlib

/-!
# Verification of the bullshit-history game engine

Shallow embedding of the repository's core modules:

* `src/types/game.ts`   — data model and default buffer rules,
* `src/utils/gameLogic.ts` — buffer policy, buffer check, challenge resolver,
* `src/context/GameContext.tsx` — game-state transitions (createGame, joinGame,
  startGame, submitEvent, callBullshit),
* `src/services/eventCache.ts` — the size-bounded result cache,
* `src/services/wikipedia.ts` — the fact classifier (meta-page filter,
  biographical shortcut, event gate, date extraction, validateEvent).

JavaScript numbers holding years, months and days are modelled as `Int`
(year differences can be negative); counts of tolerance years are modelled
as `Nat`.  A JS `Date` value is modelled by an integer instant; its
`toISOString` output is modelled by an abstract wrapper carrying the
instant, since `toISOString` is injective on valid dates and
`new Date(iso)` recovers the same instant.  Fallible operations (JS code
that would throw on `undefined` member access) return `Option`.
-/

/-! ## Data model (src/types/game.ts) -/

inductive GamePhase
  | lobby
  | playing
  | results
deriving DecidableEq, Repr

structure Player where
  id : String
  name : String
  isAlive : Bool
  isHost : Option Bool := none
deriving DecidableEq, Repr

/-- Model of a JS `Date` value: the instant it denotes, as an integer.
`new Date(year, month, day)` is modelled by an injective encoding of the
components (no game-logic claim inspects the epoch arithmetic). -/
def mkJSDate (year month day : Int) : Int :=
  (year * 12 + month) * 32 + day

structure HistoricalEvent where
  title : String
  date : Int
  year : Int
  month : Int
  day : Int
  wikipediaUrl : Option String := none
  description : Option String := none
deriving DecidableEq, Repr

structure GameEvent where
  playerId : String
  playerName : String
  event : HistoricalEvent
  wasChecked : Bool
  wasCorrect : Option Bool := none
  timestamp : Int
deriving DecidableEq, Repr

structure BufferRule where
  fromYear : Int
  toYear : Int
  bufferYears : Nat
deriving DecidableEq, Repr

structure GameSettings where
  startingCentury : Int
  bufferRules : List BufferRule
  maxPlayers : Nat
  requireDayPrecision : Bool
deriving DecidableEq, Repr

structure GameState where
  gameId : String
  phase : GamePhase
  players : List Player
  currentPlayerIndex : Nat
  eventChain : List GameEvent
  settings : GameSettings
  currentBuffer : Nat
  lastCheckedEventIndex : Int
deriving DecidableEq, Repr

def DEFAULT_BUFFER_RULES : List BufferRule :=
  [ ⟨0, 999, 50⟩
  , ⟨1000, 1499, 25⟩
  , ⟨1500, 1799, 10⟩
  , ⟨1800, 1899, 5⟩
  , ⟨1900, 1949, 3⟩
  , ⟨1950, 1999, 2⟩
  , ⟨2000, 9999, 1⟩ ]

def DEFAULT_SETTINGS : GameSettings :=
  { startingCentury := 12
  , bufferRules := DEFAULT_BUFFER_RULES
  , maxPlayers := 8
  , requireDayPrecision := false }

/-! ## Game logic (src/utils/gameLogic.ts) -/

/-- `calculateBuffer`: scan the rules in order, return the first match's
`bufferYears`, defaulting to 1 when no rule matches. -/
def calculateBuffer (year : Int) : List BufferRule → Nat
  | [] => 1
  | rule :: rules =>
      if rule.fromYear ≤ year ∧ year ≤ rule.toYear then rule.bufferYears
      else calculateBuffer year rules

structure BufferCheck where
  isValid : Bool
  yearDifference : Int
deriving DecidableEq, Repr

/-- `isEventWithinBuffer`: invalid when the candidate precedes the anchor,
otherwise valid iff the year difference is within the buffer. -/
def isEventWithinBuffer (anchorEvent newEvent : HistoricalEvent)
    (bufferYears : Nat) : BufferCheck :=
  let yearDifference := newEvent.year - anchorEvent.year
  if yearDifference < 0 then
    ⟨false, yearDifference⟩
  else
    ⟨decide (yearDifference ≤ (bufferYears : Int)), yearDifference⟩

/-- JS array access `l[i]` with a possibly negative index: `undefined`
(modelled `none`) when out of bounds. -/
def jsIndex {α : Type} (l : List α) (i : Int) : Option α :=
  if i < 0 then none else l.get? i.toNat

/-- `getAnchorEvent`: `eventChain[lastCheckedEventIndex] || null`. -/
def getAnchorEvent (gameState : GameState) : Option GameEvent :=
  if gameState.eventChain.length = 0 then none
  else jsIndex gameState.eventChain gameState.lastCheckedEventIndex

structure BullshitResult where
  success : Bool
  eliminatedPlayerId : String
  wasEventCorrect : Bool
  details : String
deriving DecidableEq, Repr

/-- `processBullshitCall`: resolve a challenge from `callingPlayerId`
against the last chain entry, comparing it with the anchor event. -/
def processBullshitCall (gameState : GameState) (callingPlayerId : String) :
    BullshitResult :=
  match gameState.eventChain.getLast? with
  | none =>
      ⟨false, "", true, "No events to check"⟩
  | some lastEvent =>
      match getAnchorEvent gameState with
      | none =>
          ⟨false, callingPlayerId, true, "Cannot call BS on the first event"⟩
      | some anchorEvent =>
          let buffer := calculateBuffer anchorEvent.event.year
            gameState.settings.bufferRules
          let check := isEventWithinBuffer anchorEvent.event lastEvent.event buffer
          if check.isValid then
            ⟨false, callingPlayerId, true,
              "Event was correct! Year difference: "
                ++ toString check.yearDifference
                ++ ", Buffer: " ++ toString buffer⟩
          else
            ⟨true, lastEvent.playerId, false,
              "Event was incorrect! Year difference: "
                ++ toString check.yearDifference
                ++ ", Buffer: " ++ toString buffer⟩

/-- `isGameOver`: at most one alive player remains. -/
def isGameOver (gameState : GameState) : Bool :=
  (gameState.players.filter (fun p => p.isAlive)).length ≤ 1

/-! ## Game-state transitions (src/context/GameContext.tsx)

The React context holds a `GameState | null` and every operation replaces
it wholesale via `setGameState`; we model the operations as pure functions
from the current state (the `null` case is the absence of a state and is
not modelled).  `Math.random`-generated ids, `Date.now()` timestamps and
the externally fetched starting event become explicit parameters. -/

/-- The `while` loop of `getNextPlayerIndex`, with the remaining number of
permitted iterations (`players.length - attempts`) as fuel: the loop stops
as soon as the player at the index is alive. -/
def nextIndexLoop (players : List Player) : Nat → Nat → Nat
  | idx, 0 => idx
  | idx, remaining + 1 =>
      match players.get? idx with
      | some p =>
          if p.isAlive then idx
          else nextIndexLoop players ((idx + 1) % players.length) remaining
      | none => idx

/-- `getNextPlayerIndex`: circular scan for the next alive player, bounded
by `players.length` attempts. -/
def getNextPlayerIndex (gameState : GameState) : Nat :=
  nextIndexLoop gameState.players
    ((gameState.currentPlayerIndex + 1) % gameState.players.length)
    gameState.players.length

/-- `createGame`: fresh lobby state with the host as sole player. -/
def createGame (hostName gameId hostId : String) : GameState :=
  { gameId := gameId
  , phase := GamePhase.lobby
  , players := [⟨hostId, hostName, true, some true⟩]
  , currentPlayerIndex := 0
  , eventChain := []
  , settings := DEFAULT_SETTINGS
  , currentBuffer :=
      calculateBuffer ((DEFAULT_SETTINGS.startingCentury - 1) * 100)
        DEFAULT_SETTINGS.bufferRules
  , lastCheckedEventIndex := -1 }

/-- `joinGame`: append a new alive player. -/
def joinGame (gameState : GameState) (playerName playerId : String) :
    GameState :=
  { gameState with
      players := gameState.players ++ [⟨playerId, playerName, true, none⟩] }

/-- `startGame`: requires at least two players; seeds the chain with the
externally fetched starting event (checked and correct) and moves to the
playing phase.  `none` models the early return (state unchanged). -/
def startGame (gameState : GameState) (startingEvent : HistoricalEvent)
    (now : Int) : Option GameState :=
  if gameState.players.length < 2 then none
  else
    let initialGameEvent : GameEvent :=
      ⟨"system", "Game", startingEvent, true, some true, now⟩
    let initialBuffer :=
      calculateBuffer startingEvent.year gameState.settings.bufferRules
    some { gameState with
             phase := GamePhase.playing
           , eventChain := [initialGameEvent]
           , lastCheckedEventIndex := 0
           , currentBuffer := initialBuffer }

structure SubmitResult where
  success : Bool
  message : String
deriving DecidableEq, Repr

/-- JS `String.prototype.toLowerCase`, modelled characterwise (ASCII case
folding; the byte-level `String.toLower` of core Lean does not reduce in
the kernel, so we map over the character list). -/
def jsToLower (s : String) : String :=
  ⟨s.data.map Char.toLower⟩

/-- The duplicate-title check of `submitEvent`. -/
def isDuplicateEvent (gameState : GameState) (event : HistoricalEvent) : Bool :=
  gameState.eventChain.any
    (fun gameEvent => jsToLower gameEvent.event.title == jsToLower event.title)

/-- `submitEvent`: rejects case-insensitive duplicate titles, otherwise
appends an unchecked entry for the current player, recomputes the buffer
from the new event's year and advances to the next alive player.  `none`
models the crash on an out-of-range `currentPlayerIndex`. -/
def submitEvent (gameState : GameState) (event : HistoricalEvent)
    (now : Int) : Option (SubmitResult × GameState) :=
  let validatedEvent := event
  if isDuplicateEvent gameState validatedEvent then
    some (⟨false, "This event has already been submitted! Try a different one."⟩,
          gameState)
  else
    match gameState.players.get? gameState.currentPlayerIndex with
    | none => none
    | some currentPlayer =>
        let newGameEvent : GameEvent :=
          ⟨currentPlayer.id, currentPlayer.name, validatedEvent, false, none, now⟩
        let newEventChain := gameState.eventChain ++ [newGameEvent]
        let newLastCheckedIndex : Int :=
          if gameState.lastCheckedEventIndex = -1 then 0
          else gameState.lastCheckedEventIndex
        let newBuffer :=
          calculateBuffer validatedEvent.year gameState.settings.bufferRules
        let nextPlayerIndex := getNextPlayerIndex gameState
        some (⟨true, "Event submitted!"⟩,
              { gameState with
                  eventChain := newEventChain
                , currentPlayerIndex := nextPlayerIndex
                , currentBuffer := newBuffer
                , lastCheckedEventIndex := newLastCheckedIndex })

/-- `callBullshit`: resolve the challenge, mark the last entry checked,
eliminate the named player, move the anchor index, recompute the buffer
from the new anchor's year, and finish the game when at most one player
remains.  `none` models the crash on `updatedEventChain[newLastCheckedIndex]`
being `undefined`. -/
def callBullshit (gameState : GameState) (playerId : String) :
    Option GameState :=
  let result := processBullshitCall gameState playerId
  let updatedEventChain :=
    match gameState.eventChain.getLast? with
    | none => gameState.eventChain
    | some lastEvent =>
        gameState.eventChain.dropLast
          ++ [{ lastEvent with
                  wasChecked := true
                , wasCorrect := some result.wasEventCorrect }]
  let updatedPlayers := gameState.players.map
    (fun p => if p.id == result.eliminatedPlayerId
              then { p with isAlive := false } else p)
  let newLastCheckedIndex : Int :=
    if result.wasEventCorrect then (updatedEventChain.length : Int) - 1
    else max 0 ((updatedEventChain.length : Int) - 2)
  let gameOver := isGameOver { gameState with players := updatedPlayers }
  match jsIndex updatedEventChain newLastCheckedIndex with
  | none => none
  | some newAnchor =>
      some { gameState with
               players := updatedPlayers
             , eventChain := updatedEventChain
             , lastCheckedEventIndex := newLastCheckedIndex
             , phase := if gameOver then GamePhase.results else GamePhase.playing
             , currentBuffer :=
                 calculateBuffer newAnchor.event.year
                   gameState.settings.bufferRules }

/-! ## Chain bookkeeping used by the claims -/

/-- Number of unresolved (`wasChecked = false`) chain entries. -/
def countUnresolved (gameState : GameState) : Nat :=
  gameState.eventChain.countP (fun gameEvent => !gameEvent.wasChecked)

/-- The chain holds at least one unresolved entry. -/
def hasUnresolved (gameState : GameState) : Bool :=
  gameState.eventChain.any (fun gameEvent => !gameEvent.wasChecked)

/-! ## Claim C1 — the buffer check -/

/-- C1: `isEventWithinBuffer` classifies the candidate as invalid iff the
year difference is negative or exceeds the tolerance; in particular it is
false whenever the candidate precedes the anchor, regardless of tolerance,
and true when the years coincide. -/
theorem C1_buffer_check (a c : HistoricalEvent) (t : Nat) :
    ((isEventWithinBuffer a c t).isValid = false ↔
      (c.year - a.year < 0 ∨ c.year - a.year > (t : Int)))
    ∧ (c.year < a.year → (isEventWithinBuffer a c t).isValid = false)
    ∧ (c.year = a.year → (isEventWithinBuffer a c t).isValid = true) := by
  unfold isEventWithinBuffer
  simp only []
  refine ⟨?_, ?_, ?_⟩
  · split_ifs with h <;> simp <;> omega
  · intro hlt
    rw [if_pos (show c.year - a.year < 0 by omega)]
  · intro heq
    rw [if_neg (show ¬ c.year - a.year < 0 by omega)]
    simp
    omega

/-- Witness for C1 at a concrete pair of events. -/
theorem C1_buffer_check_witness :
    (isEventWithinBuffer ⟨"a", 0, 1200, 0, 1, none, none⟩
      ⟨"b", 0, 1150, 0, 1, none, none⟩ 100).isValid = false :=
  (C1_buffer_check ⟨"a", 0, 1200, 0, 1, none, none⟩
    ⟨"b", 0, 1150, 0, 1, none, none⟩ 100).2.1 (by decide)

/-! ## Claim C8 — the buffer policy -/

set_option maxHeartbeats 1600000 in
/-- C8: `calculateBuffer` returns the `bufferYears` of the first rule whose
inclusive range contains the year, defaulting to 1; under the default rule
set every year in `0..9999` is matched by exactly one rule, so the default
branch is unreachable there. -/
theorem C8_buffer_policy (y : Int) (rules : List BufferRule) :
    calculateBuffer y rules =
      ((rules.find? (fun r => decide (r.fromYear ≤ y ∧ y ≤ r.toYear))).map
        BufferRule.bufferYears).getD 1
    ∧ (0 ≤ y → y ≤ 9999 →
        DEFAULT_BUFFER_RULES.countP
            (fun r => decide (r.fromYear ≤ y ∧ y ≤ r.toYear)) = 1
        ∧ ∃ r ∈ DEFAULT_BUFFER_RULES,
            (r.fromYear ≤ y ∧ y ≤ r.toYear)
            ∧ calculateBuffer y DEFAULT_BUFFER_RULES = r.bufferYears) := by
  constructor
  · induction rules with
    | nil => rfl
    | cons r rs ih =>
        by_cases h : r.fromYear ≤ y ∧ y ≤ r.toYear
        · rw [List.find?_cons_of_pos _ (by simpa using h)]
          simp [calculateBuffer, h]
        · rw [List.find?_cons_of_neg _ (by simpa using h)]
          simp only [calculateBuffer, if_neg h]
          exact ih
  · intro h0 h9
    constructor
    · simp only [DEFAULT_BUFFER_RULES, List.countP_cons, List.countP_nil,
        decide_eq_true_eq]
      split_ifs <;> omega
    · by_cases h1 : y ≤ 999
      · exact ⟨⟨0, 999, 50⟩, by decide, ⟨h0, h1⟩,
          by simp only [DEFAULT_BUFFER_RULES, calculateBuffer]; split_ifs <;> omega⟩
      · by_cases h2 : y ≤ 1499
        · exact ⟨⟨1000, 1499, 25⟩, by decide, ⟨show (1000:Int) ≤ y by omega, h2⟩,
            by simp only [DEFAULT_BUFFER_RULES, calculateBuffer]; split_ifs <;> omega⟩
        · by_cases h3 : y ≤ 1799
          · exact ⟨⟨1500, 1799, 10⟩, by decide, ⟨show (1500:Int) ≤ y by omega, h3⟩,
              by simp only [DEFAULT_BUFFER_RULES, calculateBuffer]; split_ifs <;> omega⟩
          · by_cases h4 : y ≤ 1899
            · exact ⟨⟨1800, 1899, 5⟩, by decide, ⟨show (1800:Int) ≤ y by omega, h4⟩,
                by simp only [DEFAULT_BUFFER_RULES, calculateBuffer]; split_ifs <;> omega⟩
            · by_cases h5 : y ≤ 1949
              · exact ⟨⟨1900, 1949, 3⟩, by decide, ⟨show (1900:Int) ≤ y by omega, h5⟩,
                  by simp only [DEFAULT_BUFFER_RULES, calculateBuffer]; split_ifs <;> omega⟩
              · by_cases h6 : y ≤ 1999
                · exact ⟨⟨1950, 1999, 2⟩, by decide, ⟨show (1950:Int) ≤ y by omega, h6⟩,
                    by simp only [DEFAULT_BUFFER_RULES, calculateBuffer]; split_ifs <;> omega⟩
                · exact ⟨⟨2000, 9999, 1⟩, by decide, ⟨show (2000:Int) ≤ y by omega, h9⟩,
                    by simp only [DEFAULT_BUFFER_RULES, calculateBuffer]; split_ifs <;> omega⟩

/-- Witness for C8 at year 1200 under the default rules. -/
theorem C8_buffer_policy_witness :
    calculateBuffer 1200 DEFAULT_BUFFER_RULES = 25
    ∧ DEFAULT_BUFFER_RULES.countP
        (fun r => decide (r.fromYear ≤ (1200 : Int) ∧ (1200 : Int) ≤ r.toYear)) = 1 := by
  have h := (C8_buffer_policy 1200 DEFAULT_BUFFER_RULES).2 (by decide) (by decide)
  exact ⟨by decide, h.1⟩

/-! ## Shared helper lemmas about JS array indexing -/

lemma jsIndex_get {α : Type} (l : List α) (i : Int) (h0 : 0 ≤ i)
    (hlt : i < l.length) : ∃ a, jsIndex l i = some a := by
  unfold jsIndex
  rw [if_neg (by omega)]
  have hn : i.toNat < l.length := by omega
  simp [List.get?_eq_getElem?, hn]

lemma jsIndex_last {α : Type} (l : List α) (h : l ≠ []) :
    jsIndex l ((l.length : Int) - 1) = l.getLast? := by
  unfold jsIndex
  have hpos : 0 < l.length := List.length_pos.mpr h
  rw [if_neg (by omega)]
  have ht : ((l.length : Int) - 1).toNat = l.length - 1 := by omega
  rw [ht, List.getLast?_eq_getElem?, List.get?_eq_getElem?]

/-! ## Claim C2 — challenge resolution outcome -/

/-- C2: with a non-empty chain and an established anchor,
`processBullshitCall` eliminates the challenger (and reports the event
correct) exactly when the last event is within the anchor's tolerance with
a non-negative year difference, and otherwise eliminates the last event's
submitter (and reports the event incorrect). -/
theorem C2_challenge_resolution (s : GameState) (pid : String)
    (lastEvent anchorEvent : GameEvent)
    (hlast : s.eventChain.getLast? = some lastEvent)
    (hanchor : getAnchorEvent s = some anchorEvent) :
    ((isEventWithinBuffer anchorEvent.event lastEvent.event
        (calculateBuffer anchorEvent.event.year s.settings.bufferRules)).isValid = true →
      (processBullshitCall s pid).eliminatedPlayerId = pid
        ∧ (processBullshitCall s pid).wasEventCorrect = true)
    ∧ ((isEventWithinBuffer anchorEvent.event lastEvent.event
        (calculateBuffer anchorEvent.event.year s.settings.bufferRules)).isValid = false →
      (processBullshitCall s pid).eliminatedPlayerId = lastEvent.playerId
        ∧ (processBullshitCall s pid).wasEventCorrect = false) := by
  unfold processBullshitCall
  rw [hlast, hanchor]
  constructor
  · intro hv
    simp [hv]
  · intro hv
    simp [hv]

/-! ## Claim C9 — challenging when the last entry is the anchor -/

/-- C9: when the last chain entry is itself the current anchor
(`lastCheckedEventIndex = length - 1`), a challenge compares the event
against itself (the anchor is the last entry), so the outcome is always
"event correct" and the challenger is always the one eliminated. -/
theorem C9_self_anchor (s : GameState) (pid : String)
    (hne : s.eventChain ≠ [])
    (hidx : s.lastCheckedEventIndex = (s.eventChain.length : Int) - 1) :
    getAnchorEvent s = s.eventChain.getLast?
    ∧ (processBullshitCall s pid).eliminatedPlayerId = pid
    ∧ (processBullshitCall s pid).wasEventCorrect = true := by
  obtain ⟨lastEvent, hlast⟩ :=
    Option.isSome_iff_exists.mp (List.getLast?_isSome.mpr hne)
  have hanchor : getAnchorEvent s = s.eventChain.getLast? := by
    unfold getAnchorEvent
    rw [if_neg (by simpa [List.length_eq_zero] using hne), hidx, jsIndex_last _ hne]
  have hval : (isEventWithinBuffer lastEvent.event lastEvent.event
      (calculateBuffer lastEvent.event.year s.settings.bufferRules)).isValid = true := by
    unfold isEventWithinBuffer
    simp
  refine ⟨hanchor, ?_⟩
  unfold processBullshitCall
  rw [hlast, hanchor.trans hlast]
  simp [hval]

/-! ## Claim C7 — anchor recomputation after a challenge -/

/-- C7: on a chain of length `n ≥ 2`, resolving a challenge moves the
anchor index to `n - 1` when the disputed event was correct and to `n - 2`
(= `max 0 (n-2)`) when it was not, while the disputed entry remains in the
chain (the chain length is unchanged). -/
theorem C7_anchor_recomputation (s : GameState) (pid : String)
    (hlen : 2 ≤ s.eventChain.length) :
    ∃ s', callBullshit s pid = some s'
      ∧ s'.eventChain.length = s.eventChain.length
      ∧ s'.lastCheckedEventIndex =
          (if (processBullshitCall s pid).wasEventCorrect
           then (s.eventChain.length : Int) - 1
           else (s.eventChain.length : Int) - 2) := by
  have hne : s.eventChain ≠ [] := by
    intro h
    rw [h] at hlen
    simp at hlen
  obtain ⟨le, hlast⟩ :=
    Option.isSome_iff_exists.mp (List.getLast?_isSome.mpr hne)
  unfold callBullshit
  rw [hlast]
  dsimp only []
  cases hwc : (processBullshitCall s pid).wasEventCorrect with
  | true =>
      rw [if_pos rfl]
      set chain' := s.eventChain.dropLast ++
        [{ playerId := le.playerId, playerName := le.playerName,
           event := le.event, wasChecked := true,
           wasCorrect := some true, timestamp := le.timestamp }] with hchain
      have hclen : chain'.length = s.eventChain.length := by
        rw [hchain]
        simp
        omega
      have hchne : chain' ≠ [] := by
        intro h
        rw [h] at hclen
        simp at hclen
        omega
      rw [jsIndex_last chain' hchne]
      rw [hchain, List.getLast?_concat]
      refine ⟨_, rfl, ?_, ?_⟩
      · simp
        omega
      · simp
        omega
  | false =>
      rw [if_neg (by simp)]
      set chain' := s.eventChain.dropLast ++
        [{ playerId := le.playerId, playerName := le.playerName,
           event := le.event, wasChecked := true,
           wasCorrect := some false, timestamp := le.timestamp }] with hchain
      have hclen : chain'.length = s.eventChain.length := by
        rw [hchain]
        simp
        omega
      have hmax : (0 : Int) ⊔ ((chain'.length : Int) - 2) = (chain'.length : Int) - 2 := by
        rw [max_eq_right]
        omega
      rw [hmax]
      obtain ⟨a, ha⟩ := jsIndex_get chain' ((chain'.length : Int) - 2)
        (by omega) (by omega)
      rw [ha]
      refine ⟨_, rfl, ?_, ?_⟩
      · simpa using hclen
      · simp only [Bool.false_eq_true, if_neg]
        rw [hclen]
        simp

/-! ## Concrete game states used by the witnesses -/

def wSeedEvent : HistoricalEvent :=
  ⟨"Battle of Seed", mkJSDate 1150 0 1, 1150, 0, 1, none, none⟩

def wNextEvent : HistoricalEvent :=
  ⟨"Battle of Next", mkJSDate 1170 0 1, 1170, 0, 1, none, none⟩

/-- A playing state: resolved seed at index 0 (the anchor) and one pending
submission by Alice. -/
def wChainState : GameState :=
  { gameId := "G1"
  , phase := GamePhase.playing
  , players := [⟨"pA", "Alice", true, some true⟩, ⟨"pB", "Bob", true, none⟩]
  , currentPlayerIndex := 1
  , eventChain :=
      [⟨"system", "Game", wSeedEvent, true, some true, 0⟩,
       ⟨"pA", "Alice", wNextEvent, false, none, 1⟩]
  , settings := DEFAULT_SETTINGS
  , currentBuffer := 25
  , lastCheckedEventIndex := 0 }

/-- Like `wChainState` but with the anchor index on the last entry. -/
def wSelfAnchorState : GameState :=
  { wChainState with lastCheckedEventIndex := 1 }

/-- Witness for C2: Bob challenges Alice's in-buffer event and is
eliminated. -/
theorem C2_challenge_resolution_witness :
    (processBullshitCall wChainState "pB").eliminatedPlayerId = "pB"
    ∧ (processBullshitCall wChainState "pB").wasEventCorrect = true :=
  (C2_challenge_resolution wChainState "pB"
      ⟨"pA", "Alice", wNextEvent, false, none, 1⟩
      ⟨"system", "Game", wSeedEvent, true, some true, 0⟩
      (by decide) (by decide)).1 (by decide)

/-- Witness for C9 at a state whose anchor is the last entry. -/
theorem C9_self_anchor_witness :
    (processBullshitCall wSelfAnchorState "pB").eliminatedPlayerId = "pB"
    ∧ (processBullshitCall wSelfAnchorState "pB").wasEventCorrect = true :=
  (C9_self_anchor wSelfAnchorState "pB" (by decide) (by decide)).2

/-- Witness for C7 on a concrete chain of length 2. -/
theorem C7_anchor_recomputation_witness :
    ∃ s', callBullshit wChainState "pB" = some s'
      ∧ s'.eventChain.length = wChainState.eventChain.length
      ∧ s'.lastCheckedEventIndex =
          (if (processBullshitCall wChainState "pB").wasEventCorrect
           then (wChainState.eventChain.length : Int) - 1
           else (wChainState.eventChain.length : Int) - 2) :=
  C7_anchor_recomputation wChainState "pB" (by decide)

/-! ## Claims C3 and C5 — what submitEvent actually checks

`submitEvent` checks neither the game phase nor the presence of an
unresolved entry; its only synchronous rejection is the case-insensitive
duplicate-title check. -/

lemma hasUnresolved_count (s : GameState) (h : hasUnresolved s = true) :
    1 ≤ countUnresolved s := by
  unfold hasUnresolved at h
  unfold countUnresolved
  rw [List.any_eq_true] at h
  exact List.countP_pos_iff.mpr h

/-- C3 (amended): `submitEvent` performs no unresolved-entry check: a
non-duplicate submission succeeds even while an unresolved entry exists,
and appends one more unresolved entry, so reachable states can hold two or
more unresolved entries at once. -/
theorem C3_submit_ignores_unresolved (s : GameState) (e : HistoricalEvent)
    (now : Int) (r : SubmitResult) (s' : GameState)
    (hunres : hasUnresolved s = true)
    (hdup : isDuplicateEvent s e = false)
    (hsub : submitEvent s e now = some (r, s')) :
    r.success = true
    ∧ countUnresolved s' = countUnresolved s + 1
    ∧ 2 ≤ countUnresolved s' := by
  unfold submitEvent at hsub
  dsimp only [] at hsub
  rw [hdup] at hsub
  simp only [Bool.false_eq_true, if_false] at hsub
  cases hp : s.players.get? s.currentPlayerIndex with
  | none => rw [hp] at hsub; cases hsub
  | some currentPlayer =>
      rw [hp] at hsub
      simp only [Option.some.injEq, Prod.mk.injEq] at hsub
      obtain ⟨hr, hs'⟩ := hsub
      have hcount : countUnresolved s' = countUnresolved s + 1 := by
        rw [← hs']
        unfold countUnresolved
        simp [List.countP_append]
      have h1 := hasUnresolved_count s hunres
      exact ⟨by rw [← hr], hcount, by omega⟩

/-- C5 (amended): the only synchronous rejection in `submitEvent` is the
duplicate-title check, which leaves the state unchanged; the phase is not
consulted at all. -/
theorem C5_submit_rejects_only_duplicates (s : GameState)
    (e : HistoricalEvent) (now : Int) :
    (isDuplicateEvent s e = true →
      submitEvent s e now =
        some (⟨false, "This event has already been submitted! Try a different one."⟩, s))
    ∧ (∀ r s', submitEvent s e now = some (r, s') →
        r.success = false → s' = s) := by
  constructor
  · intro hdup
    unfold submitEvent
    dsimp only []
    rw [hdup]
    simp
  · intro r s' hsub hfail
    unfold submitEvent at hsub
    dsimp only [] at hsub
    by_cases hdup : isDuplicateEvent s e = true
    · rw [hdup] at hsub
      simp only [if_true, Option.some.injEq, Prod.mk.injEq] at hsub
      exact hsub.2.symm
    · rw [Bool.not_eq_true] at hdup
      rw [hdup] at hsub
      simp only [Bool.false_eq_true, if_false] at hsub
      cases hp : s.players.get? s.currentPlayerIndex with
      | none => rw [hp] at hsub; cases hsub
      | some currentPlayer =>
          rw [hp] at hsub
          simp only [Option.some.injEq, Prod.mk.injEq] at hsub
          rw [← hsub.1] at hfail
          cases hfail

/-! ## Concrete runs refuting the unresolved-entry and phase checks -/

def demoSeed : HistoricalEvent :=
  ⟨"Treaty of Demo", mkJSDate 1120 0 1, 1120, 0, 1, none, none⟩

def demoEv1 : HistoricalEvent :=
  ⟨"Battle One", mkJSDate 1130 0 1, 1130, 0, 1, none, none⟩

def demoEv2 : HistoricalEvent :=
  ⟨"Battle Two", mkJSDate 1140 0 1, 1140, 0, 1, none, none⟩

/-- Two-player lobby reached by `createGame` then `joinGame`. -/
def demoLobby : GameState :=
  joinGame (createGame "Alice" "G2" "pA") "Bob" "pB"

/-- Playing state reached by `startGame` on the two-player lobby. -/
def demoPlaying : Option GameState := startGame demoLobby demoSeed 0

/-- State after one submission (one unresolved entry). -/
def demoAfterOne : Option GameState :=
  demoPlaying.bind (fun s => (submitEvent s demoEv1 1).map Prod.snd)

/-- State after a second submission with no intervening challenge. -/
def demoAfterTwo : Option GameState :=
  demoAfterOne.bind (fun s => (submitEvent s demoEv2 2).map Prod.snd)

/-- Counterexample to C3 as stated: in the engine-reachable state
`demoAfterOne` an unresolved entry exists, yet a second submission
succeeds, leaving two unresolved entries at once. -/
theorem C3_counterexample :
    demoAfterOne.map hasUnresolved = some true
    ∧ (demoAfterOne.bind
        (fun s => (submitEvent s demoEv2 2).map (fun pr => pr.1.success)))
      = some true
    ∧ demoAfterTwo.map countUnresolved = some 2 := by
  refine ⟨rfl, rfl, rfl⟩

/-- The concrete submission used by the C3 witness. -/
def wAfterSubmit : SubmitResult × GameState :=
  (submitEvent wChainState demoEv2 5).getD (⟨false, ""⟩, wChainState)

/-- Witness for the amended C3 on a concrete pending-entry state. -/
theorem C3_submit_ignores_unresolved_witness :
    wAfterSubmit.1.success = true
    ∧ countUnresolved wAfterSubmit.2 = countUnresolved wChainState + 1
    ∧ 2 ≤ countUnresolved wAfterSubmit.2 :=
  C3_submit_ignores_unresolved wChainState demoEv2 5
    wAfterSubmit.1 wAfterSubmit.2 (by decide) (by decide) (by decide)

/-- One-player lobby state, phase `lobby`. -/
def lobbyState : GameState := createGame "Alice" "G3" "pH"

/-- Counterexample to C5 as stated: in a state whose phase is not
`playing`, `submitEvent` succeeds and changes the state. -/
theorem C5_counterexample :
    lobbyState.phase ≠ GamePhase.playing
    ∧ (submitEvent lobbyState demoEv1 3).map (fun pr => pr.1.success)
      = some true
    ∧ (submitEvent lobbyState demoEv1 3).map
        (fun pr => decide (pr.2 = lobbyState)) = some false := by
  refine ⟨by decide, rfl, by decide⟩

/-- A duplicate of the seed title differing only in case. -/
def dupEvent : HistoricalEvent :=
  ⟨"battle of seed", mkJSDate 1200 0 1, 1200, 0, 1, none, none⟩

/-- Witness for the amended C5: a duplicate submission is rejected with
the state unchanged. -/
theorem C5_submit_rejects_only_duplicates_witness :
    submitEvent wChainState dupEvent 4 =
      some (⟨false, "This event has already been submitted! Try a different one."⟩,
            wChainState) :=
  (C5_submit_rejects_only_duplicates wChainState dupEvent 4).1 (by decide)

/-! ## Result cache (src/services/eventCache.ts)

The cache is a JSON record under a single localStorage key; we model the
record as an insertion-ordered association list with unique keys (JS object
semantics for non-index string keys), and the `localStorage` round trip by
passing the map explicitly.  The stored `date` field is the
`toISOString()` serialization; `Date.prototype.toISOString` is injective on
valid dates and `new Date(iso)` recovers the same instant, so the ISO
string is modelled by a wrapper carrying the instant it denotes. -/

structure ISODateString where
  ms : Int
deriving DecidableEq, Repr

/-- `date.toISOString()`. -/
def dateToISOString (d : Int) : ISODateString := ⟨d⟩

/-- `new Date(isoString)` on a string produced by `toISOString`. -/
def dateOfISOString (s : ISODateString) : Int := s.ms

structure CachedEvent where
  title : String
  dateISO : ISODateString
  year : Int
  month : Int
  day : Int
  wikipediaUrl : Option String
  description : Option String
  cachedAt : Int
deriving DecidableEq, Repr

abbrev EventCacheMap := List (String × CachedEvent)

def MAX_CACHE_SIZE : Nat := 500

/-- JS whitespace class `\s`, approximated by Unicode whitespace. -/
def isSpaceChar (c : Char) : Bool := c.isWhitespace

/-- `trim()` on the character list. -/
def trimChars (l : List Char) : List Char :=
  ((l.dropWhile isSpaceChar).reverse.dropWhile isSpaceChar).reverse

/-- `replace(/\s+/g, ' ')`: each maximal whitespace run becomes a single
space.  The flag records whether the previous character was whitespace. -/
def collapseWS : Bool → List Char → List Char
  | _, [] => []
  | prevWS, c :: cs =>
      if isSpaceChar c then
        if prevWS then collapseWS true cs
        else ' ' :: collapseWS true cs
      else c :: collapseWS false cs

/-- `normalizeEventName`: `name.toLowerCase().trim().replace(/\s+/g, ' ')`. -/
def normalizeEventName (name : String) : String :=
  ⟨collapseWS false (trimChars (jsToLower name).data)⟩

/-- `cache.events[key] = value`: replace in place, or append a new key. -/
def recordSet (m : EventCacheMap) (key : String) (v : CachedEvent) :
    EventCacheMap :=
  if (m.lookup key).isSome then
    m.map (fun kv => if kv.1 == key then (key, v) else kv)
  else m ++ [(key, v)]

/-- `saveCache`: when over the size bound, drop the oldest-written entries
(stable sort of the keys by `cachedAt`, remove the excess head). -/
def saveCache (events : EventCacheMap) : EventCacheMap :=
  if events.length > MAX_CACHE_SIZE then
    let sortedKeys :=
      (events.mergeSort (fun a b => a.2.cachedAt ≤ b.2.cachedAt)).map Prod.fst
    let toRemove := sortedKeys.take (events.length - MAX_CACHE_SIZE)
    events.filter (fun kv => !(toRemove.contains kv.1))
  else events

/-- `cacheEvent`: store the event keyed by the normalized query name, with
the date serialized and a write timestamp. -/
def cacheEvent (cache : EventCacheMap) (eventName : String)
    (event : HistoricalEvent) (now : Int) : EventCacheMap :=
  let key := normalizeEventName eventName
  saveCache (recordSet cache key
    ⟨event.title, dateToISOString event.date, event.year, event.month,
     event.day, event.wikipediaUrl, event.description, now⟩)

/-- `getCachedEvent`: look up the normalized name and rebuild the event
without the `cachedAt` timestamp, reconstructing the `Date`. -/
def getCachedEvent (cache : EventCacheMap) (eventName : String) :
    Option HistoricalEvent :=
  let key := normalizeEventName eventName
  match cache.lookup key with
  | none => none
  | some cached =>
      some ⟨cached.title, dateOfISOString cached.dateISO, cached.year,
            cached.month, cached.day, cached.wikipediaUrl, cached.description⟩

lemma recordSet_length (m : EventCacheMap) (k : String) (v : CachedEvent) :
    (recordSet m k v).length ≤ m.length + 1 := by
  unfold recordSet
  split_ifs with h
  · simp
  · simp

lemma lookup_recordSet (m : EventCacheMap) (k : String) (v : CachedEvent) :
    (recordSet m k v).lookup k = some v := by
  unfold recordSet
  split_ifs with h
  · induction m with
    | nil => simp at h
    | cons p rest ih =>
        rw [List.map_cons]
        by_cases hps : p.1 = k
        · have hb : (p.1 == k) = true := beq_iff_eq.mpr hps
          rw [hb]
          simp [List.lookup]
        · have hb : (p.1 == k) = false := beq_eq_false_iff_ne.mpr hps
          have hb' : (k == p.1) = false :=
            beq_eq_false_iff_ne.mpr (fun hh => hps hh.symm)
          have hrest : (rest.lookup k).isSome = true := by
            simpa [List.lookup, hb'] using h
          rw [hb]
          simp only [Bool.false_eq_true, if_false, List.lookup, hb']
          exact ih hrest
  · induction m with
    | nil => simp [List.lookup]
    | cons p rest ih =>
        by_cases hps : p.1 = k
        · exfalso
          apply h
          have hb' : (k == p.1) = true := beq_iff_eq.mpr hps.symm
          simp [List.lookup, hb']
        · have hb' : (k == p.1) = false :=
            beq_eq_false_iff_ne.mpr (fun hh => hps hh.symm)
          have hnone : ¬ (rest.lookup k).isSome = true := by
            intro hs
            apply h
            simp [List.lookup, hb', hs]
          simpa [List.lookup, hb'] using ih hnone

/-! ## Claim C10 — cache round trip -/

/-- C10: storing an event under a query name and reading it back under any
name with the same normalization returns the event — same title, year,
month, day and source fields, with the date equal to the stored date after
the ISO round trip (which recovers it exactly) and the internal `cachedAt`
timestamp absent from the result — provided the store was below the
500-entry bound, so the fresh entry cannot be evicted. -/
theorem C10_cache_roundtrip (cache : EventCacheMap) (s1 s2 : String)
    (e : HistoricalEvent) (now : Int)
    (hnorm : normalizeEventName s2 = normalizeEventName s1)
    (hsize : cache.length < MAX_CACHE_SIZE) :
    getCachedEvent (cacheEvent cache s1 e now) s2 =
      some ⟨e.title, dateOfISOString (dateToISOString e.date), e.year,
            e.month, e.day, e.wikipediaUrl, e.description⟩
    ∧ dateOfISOString (dateToISOString e.date) = e.date := by
  refine ⟨?_, rfl⟩
  unfold cacheEvent
  set v : CachedEvent :=
    ⟨e.title, dateToISOString e.date, e.year, e.month, e.day,
     e.wikipediaUrl, e.description, now⟩ with hv
  have hlen : (recordSet cache (normalizeEventName s1) v).length ≤ MAX_CACHE_SIZE := by
    have := recordSet_length cache (normalizeEventName s1) v
    omega
  have hsave : saveCache (recordSet cache (normalizeEventName s1) v) =
      recordSet cache (normalizeEventName s1) v := by
    unfold saveCache
    rw [if_neg (by omega)]
  unfold getCachedEvent
  rw [hnorm, hsave]
  dsimp only []
  rw [lookup_recordSet]

/-- Witness for C10: round trip on an empty cache with two spellings that
normalize identically. -/
theorem C10_cache_roundtrip_witness :
    getCachedEvent (cacheEvent [] "The  Battle of Seed " wSeedEvent 9)
        "  the battle OF seed" =
      some ⟨wSeedEvent.title,
            dateOfISOString (dateToISOString wSeedEvent.date),
            wSeedEvent.year, wSeedEvent.month, wSeedEvent.day,
            wSeedEvent.wikipediaUrl, wSeedEvent.description⟩ :=
  (C10_cache_roundtrip [] "The  Battle of Seed " "  the battle OF seed"
    wSeedEvent 9 (by decide) (by decide)).1

/-! ## Fact classifier (src/services/wikipedia.ts)

The classifier is a cascade of JS regular expressions over page titles and
extract text.  Each regex is rendered as an executable matcher over the
character list.  Conventions used throughout, with the arguments for their
faithfulness to the JS engine:

* `/i` literals and alternations are matched by case-insensitive prefix
  comparison; an ordered alternation is tried left to right, exactly as the
  regex engine does, and since every use is followed by a token that cannot
  extend an alternative that already failed, no further backtracking arises.
* `\b` is a word-boundary test between `[A-Za-z0-9_]` and anything else;
  scanners carry a flag telling whether the preceding character was a word
  character.
* `\d{lo,hi}` is always followed here by a token that cannot begin with a
  digit (whitespace, punctuation, a boundary or end), so backtracking
  semantics coincide with taking the maximal digit run and requiring its
  length in `[lo, hi]`.  A capture `(\d{n})` without a leading `\b` takes
  exactly `n` digits (it may sit inside a longer run), as the engine does.
* `\s+` and `\s*` are greedy runs of whitespace; no following token here
  can match whitespace, so greediness is exact.
* `.*?` (the dot not matching line terminators) is a lazy gap: the
  continuation is tried at every offset from the current position, stopping
  at a line terminator — the engine's behaviour for a lazy dot-star.
* A whole-regex `text.match(re)` is the leftmost position at which the
  matcher succeeds. -/

/-- JS word character class `\w` = `[A-Za-z0-9_]`. -/
def isWordChar (c : Char) : Bool := c.isAlpha || c.isDigit || c == '_'

/-- Case-insensitive character comparison (the `/i` flag). -/
def lowerEq (a b : Char) : Bool := a.toLower == b.toLower

/-- Case-insensitive literal: consume `pat` from the head of `s`. -/
def dropCI : List Char → List Char → Option (List Char)
  | [], s => some s
  | _ :: _, [] => none
  | p :: ps, c :: cs => if lowerEq p c then dropCI ps cs else none

/-- Ordered case-insensitive alternation of literals; returns the matched
alternative (as written in the pattern) and the rest. -/
def parseAltCI : List String → List Char → Option (String × List Char)
  | [], _ => none
  | w :: ws, s =>
      match dropCI w.data s with
      | some rest => some (w, rest)
      | none => parseAltCI ws s

/-- `\b` after a token ending in a word character. -/
def boundaryAfter : List Char → Bool
  | [] => true
  | c :: _ => !isWordChar c

/-- `\s+`. -/
def spaces1 : List Char → Option (List Char)
  | [] => none
  | c :: cs => if isSpaceChar c then some (cs.dropWhile isSpaceChar) else none

/-- `\s*`. -/
def spaces0 (s : List Char) : List Char := s.dropWhile isSpaceChar

def digitVal (c : Char) : Nat := c.toNat - '0'.toNat

def natOfDigits (l : List Char) : Nat :=
  l.foldl (fun a c => a * 10 + digitVal c) 0

/-- `\d{lo,hi}` followed by a non-digit-initial token: the maximal digit
run, whose length must lie in `[lo, hi]`. -/
def digitsBounded (lo hi : Nat) (s : List Char) : Option (Nat × List Char) :=
  let ds := s.takeWhile Char.isDigit
  let rest := s.dropWhile Char.isDigit
  if lo ≤ ds.length ∧ ds.length ≤ hi then some (natOfDigits ds, rest) else none

/-- `(\d{n})` with no leading `\b`: exactly `n` digits from this position. -/
def digitsExactAux : Nat → Nat → List Char → Option (Nat × List Char)
  | 0, acc, s => some (acc, s)
  | _ + 1, _, [] => none
  | n + 1, acc, c :: cs =>
      if c.isDigit then digitsExactAux n (acc * 10 + digitVal c) cs else none

def digitsExact (n : Nat) (s : List Char) : Option (Nat × List Char) :=
  digitsExactAux n 0 s

/-- `,?` where the next token cannot match a comma. -/
def optComma : List Char → List Char
  | ',' :: cs => cs
  | s => s

/-- The character class `[-–]`. -/
def dashChar (c : Char) : Bool := c == '-' || c == '–'

def parseDash : List Char → Option (List Char)
  | [] => none
  | c :: cs => if dashChar c then some cs else none

/-- An optional `(?:w\s+)?` group whose continuation can never begin with
the letters of `w` (here `w` = "on": continuations start with a digit or a
month name, none of which begins "on"), so the regex never succeeds via
the skipped-group path when the group itself matches. -/
def optWordSp (w : String) (s : List Char) : List Char :=
  match (do
    let r ← dropCI w.data s
    spaces1 r : Option (List Char)) with
  | some r => r
  | none => s

/-- Leftmost-match scanner; the flag records whether the previous character
is a word character (for `\b` at pattern start). -/
def scanFirst {α : Type} (p : Bool → List Char → Option α) :
    Bool → List Char → Option α
  | prevW, [] => p prevW []
  | prevW, c :: cs =>
      match p prevW (c :: cs) with
      | some a => some a
      | none => scanFirst p (isWordChar c) cs

/-- `text.match(re)`: leftmost successful match of the matcher. -/
def firstMatch {α : Type} (p : Bool → List Char → Option α)
    (text : String) : Option α :=
  scanFirst p false text.data

/-- JS line terminators excluded by `.`. -/
def isLineTerm (c : Char) : Bool := c == '\n' || c == '\r'

/-- A lazy `.*?` gap: try the continuation at each offset, never crossing a
line terminator. -/
def scanGap {α : Type} (p : Bool → List Char → Option α) :
    Bool → List Char → Option α
  | prevW, s =>
      match p prevW s with
      | some a => some a
      | none =>
          match s with
          | [] => none
          | c :: cs => if isLineTerm c then none else scanGap p (isWordChar c) cs

/-- End-of-string test for `$`-anchored title patterns. -/
def atEnd : List Char → Bool
  | [] => true
  | _ :: _ => false

/-- `^\d+(st|nd|rd|th) word$` (the "21st century" / "2nd millennium"
title shapes). -/
def metaOrdinal (word : String) (t : List Char) : Bool :=
  (do
    let (_, r1) ← digitsBounded 1 t.length t
    let (_, r2) ← parseAltCI ["st", "nd", "rd", "th"] r1
    let r3 ← dropCI (" " ++ word).data r2
    guard (atEnd r3)
    pure () : Option Unit).isSome

/-- `^\d{4}s?$` ("1990s", "2000"). -/
def metaYearsTitle (t : List Char) : Bool :=
  (do
    let (_, r1) ← digitsBounded 4 4 t
    match r1 with
    | [] => pure ()
    | c :: rest => do
        guard (lowerEq 's' c)
        guard (atEnd rest)
        pure () : Option Unit).isSome

/-- `^(Month) \d{lo,hi}$` ("January 2020", "January 15"). -/
def metaMonthNum (lo hi : Nat) (t : List Char) : Bool :=
  (do
    let (_, r1) ← parseAltCI
      ["January", "February", "March", "April", "May", "June", "July",
       "August", "September", "October", "November", "December"] t
    let r2 ← dropCI " ".data r1
    let (_, r3) ← digitsBounded lo hi r2
    guard (atEnd r3)
    pure () : Option Unit).isSome

/-- `^\d{4}$`. -/
def metaExactYear (t : List Char) : Bool :=
  (do
    let (_, r1) ← digitsBounded 4 4 t
    guard (atEnd r1)
    pure () : Option Unit).isSome

/-- `^(AD|BC) \d+$`. -/
def metaEra (era : String) (t : List Char) : Bool :=
  (do
    let r1 ← dropCI (era ++ " ").data t
    let (_, r2) ← digitsBounded 1 t.length r1
    guard (atEnd r2)
    pure () : Option Unit).isSome

/-- `isTimePeriodOrMetaPage`: titles denoting pure calendrical groupings or
list/meta pages. -/
def isTimePeriodOrMetaPage (title : String) : Bool :=
  let t := title.data
  (parseAltCI ["List of", "Timeline of", "Category:", "Index of"] t).isSome
  || metaOrdinal "century" t
  || metaYearsTitle t
  || metaOrdinal "millennium" t
  || metaMonthNum 4 4 t
  || metaMonthNum 1 2 t
  || metaExactYear t
  || metaEra "AD" t
  || metaEra "BC" t

/-- `/\bphrase\b/i` containment: the phrase begins and ends with word
characters and its interior spaces are literal single spaces, exactly as in
the source patterns. -/
def containsPhraseWB (text : String) (phrase : String) : Bool :=
  (firstMatch (fun prevW s => do
    guard (!prevW)
    let rest ← dropCI phrase.data s
    guard (boundaryAfter rest)
    pure () : Bool → List Char → Option Unit) text).isSome

/-- `/\bphrase/i` containment without a trailing boundary (used for
`category:` whose last character is not a word character). -/
def containsPhraseNoTail (text : String) (phrase : String) : Bool :=
  (firstMatch (fun prevW s => do
    guard (!prevW)
    let _ ← dropCI phrase.data s
    pure () : Bool → List Char → Option Unit) text).isSome

/-- Case-sensitive substring test (JS `String.prototype.includes`). -/
def startsWithChars : List Char → List Char → Bool
  | [], _ => true
  | _ :: _, [] => false
  | n :: ns, h :: hs => n == h && startsWithChars ns hs

def containsSub (needle : List Char) : List Char → Bool
  | [] => needle.isEmpty
  | c :: rest => startsWithChars needle (c :: rest) || containsSub needle rest

def strContains (hay needle : String) : Bool :=
  containsSub needle.data hay.data

def monthNames : List String :=
  ["January", "February", "March", "April", "May", "June", "July",
   "August", "September", "October", "November", "December"]

def monthNumberAssoc : List (String × Int) :=
  [("january", 0), ("february", 1), ("march", 2), ("april", 3), ("may", 4),
   ("june", 5), ("july", 6), ("august", 7), ("september", 8),
   ("october", 9), ("november", 10), ("december", 11)]

/-- `getMonthNumber`: lowercase lookup with `|| 0` default (January itself
maps to 0, so the default is indistinguishable for it, as in the source). -/
def getMonthNumber (monthName : String) : Int :=
  (monthNumberAssoc.lookup (jsToLower monthName)).getD 0

def jsLeapYear (y : Int) : Bool :=
  (y % 4 == 0 && y % 100 != 0) || y % 400 == 0

def jsDaysInMonth (y m : Int) : Int :=
  if m = 1 then (if jsLeapYear y then 29 else 28)
  else if m = 3 ∨ m = 5 ∨ m = 8 ∨ m = 10 then 30
  else 31

/-- `isValidCompleteDate`: range checks, then the `new Date(y, m, d)`
round-trip check.  The JS constructor maps years 0..99 to 1900+year and
rolls an out-of-range day into the following month, so
`getMonth() === month && getDate() === day` holds exactly when the day fits
the (adjusted-year) month. -/
def isValidCompleteDate (year month day : Int) : Bool :=
  if year < 1 || year > 2100 then false
  else if month < 0 || month > 11 then false
  else if day < 1 || day > 31 then false
  else
    let fullYear := if 0 ≤ year ∧ year ≤ 99 then year + 1900 else year
    decide (day ≤ jsDaysInMonth fullYear month)

/-- The `isBiographical` test of `extractBiographicalDate`: biographical
phrasing, or birth language, or death language (the source applies the
case-insensitive patterns to the lowercased text; our matchers are already
case-insensitive). -/
def isBiographicalText (text : String) : Bool :=
  (["was", "is"].any (fun v =>
    ["person", "politician", "writer", "author", "artist", "musician",
     "actor", "scientist", "philosopher", "composer", "director",
     "inventor", "explorer", "emperor", "king", "queen", "president",
     "general"].any (fun w => containsPhraseWB text (v ++ " a " ++ w))))
  || (["was born", "born in", "born on"].any (fun p => containsPhraseWB text p))
  || (["died", "death"].any (fun p => containsPhraseWB text p))

/-- `\b(?:was )?born\s+(?:on\s+)?`: the shared head of the two birth
patterns; returns the rest of the input after the optional "on". -/
def matchBornHead (prevW : Bool) (s : List Char) : Option (List Char) := do
  guard (!prevW)
  let r1 ← (dropCI "was born".data s) <|> (dropCI "born".data s)
  let r2 ← spaces1 r1
  pure (optWordSp "on" r2)

/-- `\b(?:died|death)\s+(?:on\s+)?`: the shared head of the two death
patterns. -/
def matchDiedHead (prevW : Bool) (s : List Char) : Option (List Char) := do
  guard (!prevW)
  let r1 ← (dropCI "died".data s) <|> (dropCI "death".data s)
  let r2 ← spaces1 r1
  pure (optWordSp "on" r2)

/-- `(\d{1,2})\s+(Month)\s+(\d{3,4})\b`: returns (day, month, year). -/
def matchDMYdate (s : List Char) : Option (Int × Int × Int) := do
  let (d, r1) ← digitsBounded 1 2 s
  let r2 ← spaces1 r1
  let (mName, r3) ← parseAltCI monthNames r2
  let r4 ← spaces1 r3
  let (y, r5) ← digitsBounded 3 4 r4
  guard (boundaryAfter r5)
  pure ((d : Int), getMonthNumber mName, (y : Int))

/-- `(Month)\s+(\d{1,2}),?\s+(\d{3,4})\b`: returns (day, month, year). -/
def matchMDYdate (s : List Char) : Option (Int × Int × Int) := do
  let (mName, r1) ← parseAltCI monthNames s
  let r2 ← spaces1 r1
  let (d, r3) ← digitsBounded 1 2 r2
  let r4 ← spaces1 (optComma r3)
  let (y, r5) ← digitsBounded 3 4 r4
  guard (boundaryAfter r5)
  pure ((d : Int), getMonthNumber mName, (y : Int))

/-- `extractBiographicalDate`: on a biographical page, try birth then death
dates in both date orders.  A matched but calendar-invalid date yields
`none` via the source's early `return null`, just like no match at all; in
either case the caller receives `none` and falls through to the generic
path. -/
def extractBiographicalDate (text : String) (personName : String) :
    Option HistoricalEvent :=
  if text = "" then none
  else if !isBiographicalText text then none
  else
    match firstMatch (fun prevW s => do
        let r ← matchBornHead prevW s
        matchDMYdate r) text with
    | some (d, m, y) =>
        if isValidCompleteDate y m d then
          some ⟨"Birth of " ++ personName, mkJSDate y m d, y, m, d,
                some "", some text⟩
        else none
    | none =>
    match firstMatch (fun prevW s => do
        let r ← matchBornHead prevW s
        matchMDYdate r) text with
    | some (d, m, y) =>
        if isValidCompleteDate y m d then
          some ⟨"Birth of " ++ personName, mkJSDate y m d, y, m, d,
                some "", some text⟩
        else none
    | none =>
    match firstMatch (fun prevW s => do
        let r ← matchDiedHead prevW s
        matchDMYdate r) text with
    | some (d, m, y) =>
        if isValidCompleteDate y m d then
          some ⟨"Death of " ++ personName, mkJSDate y m d, y, m, d,
                some "", some text⟩
        else none
    | none =>
    match firstMatch (fun prevW s => do
        let r ← matchDiedHead prevW s
        matchMDYdate r) text with
    | some (d, m, y) =>
        if isValidCompleteDate y m d then
          some ⟨"Death of " ++ personName, mkJSDate y m d, y, m, d,
                some "", some text⟩
        else none
    | none => none

/-- `\byears? in the \d+(st|nd|rd|th) century\b`. -/
def yearsInCenturyPat (text : String) : Bool :=
  (firstMatch (fun prevW s => do
    guard (!prevW)
    let r1 ← (dropCI "years in the ".data s) <|> (dropCI "year in the ".data s)
    let (_, r2) ← digitsBounded 1 s.length r1
    let (_, r3) ← parseAltCI ["st", "nd", "rd", "th"] r2
    let r4 ← dropCI " century".data r3
    guard (boundaryAfter r4)
    pure () : Bool → List Char → Option Unit) text).isSome

/-- `\bevents in the year \d{4}\b`. -/
def eventsInYearPat (text : String) : Bool :=
  (firstMatch (fun prevW s => do
    guard (!prevW)
    let r1 ← dropCI "events in the year ".data s
    let (_, r2) ← digitsExact 4 r1
    guard (boundaryAfter r2)
    pure () : Bool → List Char → Option Unit) text).isSome

/-- The `timePeriodsAndOverviews` exclusion pattern group. -/
def timePeriodsAndOverviews (text : String) : Bool :=
  (["is a decade", "is a century", "is a millennium", "is a era",
    "is a period", "is a age"].any (fun p => containsPhraseWB text p))
  || (["this article is about the decade", "this article is about the century",
       "this article is about the year"].any (fun p => containsPhraseWB text p))
  || (["decade", "decades", "centuries", "year", "years"].any (fun n =>
       ["are", "were"].any (fun v =>
         containsPhraseWB text ("following " ++ n ++ " " ++ v))))
  || yearsInCenturyPat text
  || eventsInYearPat text

/-- The `excludePatterns` group: geography, concepts, products, vehicles,
technology, lists and meta pages. -/
def excludeGate (text : String) : Bool :=
  (["is a country", "is a city", "is a town", "is a village", "is a state",
    "is a province", "is a region", "is a continent"].any
      (fun p => containsPhraseWB text p))
  || (["is a language", "is a religion", "is a ideology", "is a philosophy",
       "is a theory"].any (fun p => containsPhraseWB text p))
  || (["is a turboprop", "is a engine", "is a aircraft", "is a airplane",
       "is a helicopter", "is a ship", "is a boat", "is a vessel",
       "is a vehicle", "is a car", "is a automobile", "is a tank",
       "is a submarine"].any (fun p => containsPhraseWB text p))
  || (["a", "an"].any (fun art =>
       ["family", "series", "line"].any (fun grp =>
         ["aircraft", "engine", "engines", "vehicle", "vehicles",
          "product", "products"].any (fun what =>
           containsPhraseWB text
             ("is " ++ art ++ " " ++ grp ++ " of " ++ what)))))
  || (["developed by", "manufactured by", "produced by"].any
       (fun p => containsPhraseWB text p))
  || (["is a software", "is a hardware", "is a device", "is a product",
       "is a brand", "is a model", "is a prototype"].any
       (fun p => containsPhraseWB text p))
  || (["is a computer", "is a processor", "is a chip", "is a component"].any
       (fun p => containsPhraseWB text p))
  || containsPhraseWB text "is a list of"
  || containsPhraseWB text "list of"
  || containsPhraseWB text "timeline of"
  || containsPhraseNoTail text "category:"

/-- The category-title exclusion: any category containing "countries" or
"cities" (the source lowercases the titles before the `includes` test). -/
def categoriesExcluded (categories : List String) : Bool :=
  if categories.length > 0 then
    (categories.map jsToLower).any (fun cat =>
      ["countries", "cities"].any (fun ex => strContains cat ex))
  else false

/-- `\bis a (\d{4}) (book|novel|film|movie|album|video game)\b`. -/
def culturalWorkPat (text : String) : Bool :=
  (firstMatch (fun prevW s => do
    guard (!prevW)
    let r1 ← dropCI "is a ".data s
    let (_, r2) ← digitsExact 4 r1
    let r3 ← dropCI " ".data r2
    let (_, r4) ← parseAltCI
      ["book", "novel", "film", "movie", "album", "video game"] r3
    guard (boundaryAfter r4)
    pure () : Bool → List Char → Option Unit) text).isSome

/-- The `eventPatterns` group: positive evidence of an occurrence or a
cultural release. -/
def eventGate (text : String) : Bool :=
  (["battle", "war", "conflict", "siege", "invasion", "conquest"].any
    (fun p => containsPhraseWB text p))
  || (["treaty", "agreement", "pact", "accord", "convention"].any
       (fun p => containsPhraseWB text p))
  || (["revolution", "uprising", "rebellion", "revolt"].any
       (fun p => containsPhraseWB text p))
  || (["assassination", "murder", "execution"].any
       (fun p => containsPhraseWB text p))
  || (["disaster", "earthquake", "flood", "fire", "explosion"].any
       (fun p => containsPhraseWB text p))
  || (["discovery", "invention", "founded", "established"].any
       (fun p => containsPhraseWB text p))
  || (["occurred", "took place", "happened"].any
       (fun p => containsPhraseWB text p))
  || (["military", "major", "significant", "historical"].any (fun adj =>
       ["event", "operation", "campaign"].any (fun n =>
         containsPhraseWB text ("was a " ++ adj ++ " " ++ n))))
  || (["coronation", "abdication", "election"].any
       (fun p => containsPhraseWB text p))
  || (["declaration", "proclamation", "announcement"].any
       (fun p => containsPhraseWB text p))
  || (["released", "published", "premiered", "launched"].any
       (fun p => containsPhraseWB text p))
  || culturalWorkPat text
  || (["was released in", "was released on"].any
       (fun p => containsPhraseWB text p))
  || (["was published in", "was published on"].any
       (fun p => containsPhraseWB text p))

/-- `isHistoricalEvent`: time-period overview exclusion, then non-event
exclusion, then category exclusion, then required positive evidence. -/
def isHistoricalEvent (text : String) (categories : List String) : Bool :=
  if text = "" then false
  else if timePeriodsAndOverviews text then false
  else if excludeGate text then false
  else if categoriesExcluded categories then false
  else eventGate text

structure DateInfo where
  date : Int
  year : Int
  month : Int
  day : Int
  titlePre : Option String := none
deriving DecidableEq, Repr

/-- `\b(Month)\s+(\d{1,2})\s*[-–]\s*(\d{1,2}),?\s+(\d{3,4})\b`: same-month
day range; returns (month, start day, year). -/
def matchMonthRange (prevW : Bool) (s : List Char) :
    Option (Int × Int × Int) := do
  guard (!prevW)
  let (mName, r1) ← parseAltCI monthNames s
  let r2 ← spaces1 r1
  let (d1, r3) ← digitsBounded 1 2 r2
  let r4 ← parseDash (spaces0 r3)
  let (_, r5) ← digitsBounded 1 2 (spaces0 r4)
  let r6 ← spaces1 (optComma r5)
  let (y, r7) ← digitsBounded 3 4 r6
  guard (boundaryAfter r7)
  pure (getMonthNumber mName, (d1 : Int), (y : Int))

/-- `\b(\d{1,2})\s*[-–]\s*(\d{1,2})\s+(Month)\s+(\d{3,4})\b`. -/
def matchDayRange (prevW : Bool) (s : List Char) :
    Option (Int × Int × Int) := do
  guard (!prevW)
  let (d1, r1) ← digitsBounded 1 2 s
  let r2 ← parseDash (spaces0 r1)
  let (_, r3) ← digitsBounded 1 2 (spaces0 r2)
  let r4 ← spaces1 r3
  let (mName, r5) ← parseAltCI monthNames r4
  let r6 ← spaces1 r5
  let (y, r7) ← digitsBounded 3 4 r6
  guard (boundaryAfter r7)
  pure (getMonthNumber mName, (d1 : Int), (y : Int))

/-- `\b(Month)\s+(\d{1,2})\s+(?:to|[-–])\s+(Month)\s+(\d{1,2}),?\s+(\d{3,4})\b`:
cross-month range; returns (start month, start day, year). -/
def matchCrossMonth (prevW : Bool) (s : List Char) :
    Option (Int × Int × Int) := do
  guard (!prevW)
  let (m1, r1) ← parseAltCI monthNames s
  let r2 ← spaces1 r1
  let (d1, r3) ← digitsBounded 1 2 r2
  let r4 ← spaces1 r3
  let r5 ← (dropCI "to".data r4) <|> parseDash r4
  let r6 ← spaces1 r5
  let (_, r7) ← parseAltCI monthNames r6
  let r8 ← spaces1 r7
  let (_, r9) ← digitsBounded 1 2 r8
  let r10 ← spaces1 (optComma r9)
  let (y, r11) ← digitsBounded 3 4 r10
  guard (boundaryAfter r11)
  pure (getMonthNumber m1, (d1 : Int), (y : Int))

def releaseVerbs : List String := ["released", "published", "premiered", "launched"]

/-- `\b(released|published|premiered|launched).*?\b(?:from|on)\s+(Month)\s+(\d{1,2})\s*[-–]\s*(\d{1,2}),?\s+(\d{4})\b`.
All four verbs end in a word character, so the gap scan starts in the
"after a word character" boundary state. -/
def matchReleaseRange1 (prevW : Bool) (s : List Char) :
    Option (Int × Int × Int) := do
  guard (!prevW)
  let (_, r1) ← parseAltCI releaseVerbs s
  scanGap (fun prevW2 s2 => do
    guard (!prevW2)
    let r3 ← (dropCI "from".data s2) <|> (dropCI "on".data s2)
    let r4 ← spaces1 r3
    let (mName, r5) ← parseAltCI monthNames r4
    let r6 ← spaces1 r5
    let (d1, r7) ← digitsBounded 1 2 r6
    let r8 ← parseDash (spaces0 r7)
    let (_, r9) ← digitsBounded 1 2 (spaces0 r8)
    let r10 ← spaces1 (optComma r9)
    let (y, r11) ← digitsBounded 4 4 r10
    guard (boundaryAfter r11)
    pure (getMonthNumber mName, (d1 : Int), (y : Int))) true r1

/-- `\b(released|...).*?\b(?:from|on)\s+(\d{1,2})\s*[-–]\s*(\d{1,2})\s+(Month)\s+(\d{4})\b`. -/
def matchReleaseRange2 (prevW : Bool) (s : List Char) :
    Option (Int × Int × Int) := do
  guard (!prevW)
  let (_, r1) ← parseAltCI releaseVerbs s
  scanGap (fun prevW2 s2 => do
    guard (!prevW2)
    let r3 ← (dropCI "from".data s2) <|> (dropCI "on".data s2)
    let r4 ← spaces1 r3
    let (d1, r5) ← digitsBounded 1 2 r4
    let r6 ← parseDash (spaces0 r5)
    let (_, r7) ← digitsBounded 1 2 (spaces0 r6)
    let r8 ← spaces1 r7
    let (mName, r9) ← parseAltCI monthNames r8
    let r10 ← spaces1 r9
    let (y, r11) ← digitsBounded 4 4 r10
    guard (boundaryAfter r11)
    pure (getMonthNumber mName, (d1 : Int), (y : Int))) true r1

/-- `\b(released|...).*?\b(in|on)\s+(Month)\s+(\d{1,2}),?\s+(\d{4})\b`:
release with a single complete date; returns (month, day, year). -/
def matchReleaseDate (prevW : Bool) (s : List Char) :
    Option (Int × Int × Int) := do
  guard (!prevW)
  let (_, r1) ← parseAltCI releaseVerbs s
  scanGap (fun prevW2 s2 => do
    guard (!prevW2)
    let r3 ← (dropCI "in".data s2) <|> (dropCI "on".data s2)
    let r4 ← spaces1 r3
    let (mName, r5) ← parseAltCI monthNames r4
    let r6 ← spaces1 r5
    let (d, r7) ← digitsBounded 1 2 r6
    let r8 ← spaces1 (optComma r7)
    let (y, r9) ← digitsBounded 4 4 r8
    guard (boundaryAfter r9)
    pure (getMonthNumber mName, (d : Int), (y : Int))) true r1

/-- Pattern 2 of the cascade: `\b(Month)\s+(\d{1,2}),?\s+(\d{3,4})\b`. -/
def matchPlainMDY (prevW : Bool) (s : List Char) :
    Option (Int × Int × Int) := do
  guard (!prevW)
  matchMDYdate s

/-- Pattern 3 of the cascade: `\b(\d{1,2})\s+(Month)\s+(\d{3,4})\b`. -/
def matchPlainDMY (prevW : Bool) (s : List Char) :
    Option (Int × Int × Int) := do
  guard (!prevW)
  matchDMYdate s

/-- `\b(\d{4})\s*[-–]\s*(\d{4})\b` (no `/i` flag; digits and dashes are
unaffected by case): returns the start year. -/
def matchYearRange (prevW : Bool) (s : List Char) : Option Int := do
  guard (!prevW)
  let (y1, r1) ← digitsExact 4 s
  let r2 ← parseDash (spaces0 r1)
  let (_, r3) ← digitsExact 4 (spaces0 r2)
  guard (boundaryAfter r3)
  pure (y1 : Int)

/-- `\b(began|started|commenced|fought|took place|occurred).*?(\d{4})\b`:
a year near a start/occurrence verb.  There is no `\b` before the digits,
so the lazy gap may stop inside a digit run, exactly as the JS engine
does. -/
def matchYearContext (prevW : Bool) (s : List Char) : Option Int := do
  guard (!prevW)
  let (_, r1) ← parseAltCI
    ["began", "started", "commenced", "fought", "took place", "occurred"] s
  scanGap (fun _ s2 => do
    let (y, r2) ← digitsExact 4 s2
    guard (boundaryAfter r2)
    pure (y : Int)) true r1

/-- The year-context fallback tail of `extractDateFromText` (reached both
when the year-range pattern finds no match and when its start year is out
of the 1..2100 bounds). -/
def yearContextFallback (text : String) : Option DateInfo :=
  match firstMatch matchYearContext text with
  | some y =>
      if 1 ≤ y ∧ y ≤ 2100 then
        some ⟨mkJSDate y 0 1, y, 0, 1, none⟩
      else none
  | none => none

/-- `extractDateFromText`: the ordered cascade of date patterns — ranges
first (start date, "Start of" title prefix), then release dates, then
single complete dates, then the year-range and year-context fallbacks.
Every complete date is validated; an invalid one rejects the text
(early `return null`). -/
def extractDateFromText (text : String) : Option DateInfo :=
  if text = "" then none
  else
    match firstMatch matchMonthRange text with
    | some (m, d, y) =>
        if isValidCompleteDate y m d then
          some ⟨mkJSDate y m d, y, m, d, some "Start of"⟩
        else none
    | none =>
    match firstMatch matchDayRange text with
    | some (m, d, y) =>
        if isValidCompleteDate y m d then
          some ⟨mkJSDate y m d, y, m, d, some "Start of"⟩
        else none
    | none =>
    match firstMatch matchCrossMonth text with
    | some (m, d, y) =>
        if isValidCompleteDate y m d then
          some ⟨mkJSDate y m d, y, m, d, some "Start of"⟩
        else none
    | none =>
    match firstMatch matchReleaseRange1 text with
    | some (m, d, y) =>
        if isValidCompleteDate y m d then
          some ⟨mkJSDate y m d, y, m, d, some "Start of"⟩
        else none
    | none =>
    match firstMatch matchReleaseRange2 text with
    | some (m, d, y) =>
        if isValidCompleteDate y m d then
          some ⟨mkJSDate y m d, y, m, d, some "Start of"⟩
        else none
    | none =>
    match firstMatch matchReleaseDate text with
    | some (m, d, y) =>
        if isValidCompleteDate y m d then
          some ⟨mkJSDate y m d, y, m, d, none⟩
        else none
    | none =>
    match firstMatch matchPlainMDY text with
    | some (d, m, y) =>
        if isValidCompleteDate y m d then
          some ⟨mkJSDate y m d, y, m, d, none⟩
        else none
    | none =>
    match firstMatch matchPlainDMY text with
    | some (d, m, y) =>
        if isValidCompleteDate y m d then
          some ⟨mkJSDate y m d, y, m, d, none⟩
        else none
    | none =>
    match firstMatch matchYearRange text with
    | some y1 =>
        if 1 ≤ y1 ∧ y1 ≤ 2100 then
          some ⟨mkJSDate y1 0 1, y1, 0, 1, some "Start of"⟩
        else yearContextFallback text
    | none => yearContextFallback text

/-- The page payload `getEventDetails` reads from the page-query response:
title, plain-text extract, category titles, canonical URL and the
`missing` marker.  The HTTP transport (and its error path, which the
source converts to `null`) is abstracted as a `String → Option WikiPage`
fetch function. -/
structure WikiPage where
  title : String
  extract : String
  categories : List String
  fullurl : String
  missing : Bool := false
deriving DecidableEq, Repr

/-- The generic (non-biographical) tail of `getEventDetails`: the event
gate followed by date extraction and title prefixing. -/
def genericEventResult (page : WikiPage) : Option HistoricalEvent :=
  if !isHistoricalEvent page.extract page.categories then none
  else
    match extractDateFromText page.extract with
    | none => none
    | some dateInfo =>
        let eventTitle :=
          match dateInfo.titlePre with
          | some p => p ++ " " ++ page.title
          | none => page.title
        some ⟨eventTitle, dateInfo.date, dateInfo.year, dateInfo.month,
              dateInfo.day, some page.fullurl, some page.extract⟩

/-- `getEventDetails`: meta-title exclusion, fetch, missing-page check,
biographical shortcut, then the generic event gate and date extraction. -/
def getEventDetails (pageTitle : String) (fetch : String → Option WikiPage) :
    Option HistoricalEvent :=
  if isTimePeriodOrMetaPage pageTitle then none
  else
    match fetch pageTitle with
    | none => none
    | some page =>
        if page.missing then none
        else
          match extractBiographicalDate page.extract page.title with
          | some biographicalInfo => some biographicalInfo
          | none => genericEventResult page

structure WikipediaSearchResult where
  title : String
  pageid : Int
  snippet : String
deriving DecidableEq, Repr

/-- The external Wikipedia endpoints consumed by `validateEvent`: the
search request (query, limit) and the page-details request.  Transport
failures are `[]` / `none`, as the source's catch blocks produce. -/
structure WikiWorld where
  search : String → Nat → List WikipediaSearchResult
  fetch : String → Option WikiPage

/-- The result loop of `validateEvent`, also counting the HTTP requests it
performs: skipping a meta title costs nothing (the check precedes the
request), every `getEventDetails` call on a non-meta title costs one. -/
def validateLoop (w : WikiWorld) :
    List WikipediaSearchResult → Nat → Option HistoricalEvent × Nat
  | [], requests => (none, requests)
  | result :: rest, requests =>
      if isTimePeriodOrMetaPage result.title then validateLoop w rest requests
      else
        match getEventDetails result.title w.fetch with
        | some details => (some details, requests + 1)
        | none => validateLoop w rest (requests + 1)

/-- `validateEvent`: search (one request, also on error), then try the
results in ranking order; paired with the total number of external
requests performed. -/
def validateEvent (w : WikiWorld) (eventName : String) :
    Option HistoricalEvent × Nat :=
  let results := w.search eventName 10
  if results.length = 0 then (none, 1)
  else validateLoop w results 1

/-- The classifier pipeline as wired in the source: the submission handler
calls `validateEvent` directly, and no code path on it consults
`getCachedEvent` or calls `cacheEvent` (the event-cache module has no
callers), so the cache passes through unchanged.  Returns the classifier
output, the cache after the call, and the number of external requests. -/
def classifyQuery (w : WikiWorld) (cache : EventCacheMap)
    (eventName : String) : Option HistoricalEvent × EventCacheMap × Nat :=
  let r := validateEvent w eventName
  (r.1, cache, r.2)

lemma validateLoop_requests (w : WikiWorld)
    (rs : List WikipediaSearchResult) (n : Nat) :
    n ≤ (validateLoop w rs n).2 := by
  induction rs generalizing n with
  | nil => exact le_refl n
  | cons r rest ih =>
      unfold validateLoop
      split_ifs with h
      · exact ih n
      · cases hg : getEventDetails r.title w.fetch with
        | some d => exact Nat.le_succ n
        | none => exact le_trans (Nat.le_succ n) (ih (n + 1))

/-! ## Claim C4 — classifier and the result cache -/

/-- C4 (amended): the Result Cache module exists but `validateEvent` never
reads or writes it: a classification leaves the cache unchanged, performs
at least one external request, and a repeat of the same query against the
cache produced by the first call performs external requests again while
yielding the same output (the classifier is deterministic for a fixed
external source, not cache-served). -/
theorem C4_classifier_bypasses_cache (w : WikiWorld) (cache : EventCacheMap)
    (q : String) :
    (classifyQuery w cache q).2.1 = cache
    ∧ 1 ≤ (classifyQuery w cache q).2.2
    ∧ (classifyQuery w ((classifyQuery w cache q).2.1) q).1 =
        (classifyQuery w cache q).1
    ∧ 1 ≤ (classifyQuery w ((classifyQuery w cache q).2.1) q).2.2 := by
  have hreq : 1 ≤ (validateEvent w q).2 := by
    unfold validateEvent
    dsimp only []
    split_ifs with h
    · exact le_refl 1
    · exact validateLoop_requests w (w.search q 10) 1
  exact ⟨rfl, hreq, rfl, hreq⟩

/-- A concrete external source returning one event page for any query. -/
def cxPage : WikiPage :=
  { title := "Battle of Foo"
  , extract := "The battle occurred on January 15, 1942."
  , categories := []
  , fullurl := "https://en.wikipedia.org/wiki/Battle_of_Foo"
  , missing := false }

def cxWorld : WikiWorld :=
  { search := fun _ _ => [⟨"Battle of Foo", 1, "snippet"⟩]
  , fetch := fun t => if t = "Battle of Foo" then some cxPage else none }

/-- Counterexample to C4 as stated: a successful classification writes
nothing to the cache (the key is absent afterwards), and the repeat of the
same query against the resulting cache performs two external requests
again instead of being served from the cache. -/
theorem C4_counterexample :
    ((classifyQuery cxWorld [] "battle of foo").1).isSome = true
    ∧ (classifyQuery cxWorld [] "battle of foo").2.1 = ([] : EventCacheMap)
    ∧ ((classifyQuery cxWorld [] "battle of foo").2.1).lookup
        (normalizeEventName "battle of foo") = none
    ∧ (classifyQuery cxWorld
        ((classifyQuery cxWorld [] "battle of foo").2.1) "battle of foo").2.2
        = 2 := by
  refine ⟨by decide, rfl, rfl, by decide⟩

/-! ## Claim C6 — biographical pages without an extractable date -/

/-- C6 (amended): when `extractBiographicalDate` yields nothing — in
particular on a page whose text signals a person but from which no
complete birth/death date is extracted — `getEventDetails` does not
reject the candidate outright: it falls through to the generic event gate
and date extraction, and the candidate is rejected only if those also
fail. -/
theorem C6_biographical_fallthrough (t : String)
    (fetch : String → Option WikiPage) (page : WikiPage)
    (hmeta : isTimePeriodOrMetaPage t = false)
    (hfetch : fetch t = some page)
    (hmiss : page.missing = false)
    (hbio : extractBiographicalDate page.extract page.title = none) :
    getEventDetails t fetch = genericEventResult page := by
  unfold getEventDetails
  rw [hmeta]
  simp only [Bool.false_eq_true, if_false, hfetch]
  rw [hmiss]
  simp only [Bool.false_eq_true, if_false, hbio]

/-- A page whose text signals a person but contains no complete
birth/death date, while the generic path extracts one. -/
def bioPage : WikiPage :=
  { title := "John Doe"
  , extract := "John Doe was a politician. The battle occurred on January 15, 1942."
  , categories := []
  , fullurl := "https://en.wikipedia.org/wiki/John_Doe"
  , missing := false }

def bioFetch : String → Option WikiPage :=
  fun t => if t = "John Doe" then some bioPage else none

/-- Counterexample to C6 as stated: the text signals a person, no complete
birth/death date is extractable, yet `getEventDetails` still produces a
candidate via the generic gate and date extraction instead of rejecting
it. -/
theorem C6_counterexample :
    isBiographicalText bioPage.extract = true
    ∧ extractBiographicalDate bioPage.extract bioPage.title = none
    ∧ (getEventDetails "John Doe" bioFetch).isSome = true := by
  refine ⟨by decide, by decide, by decide⟩

/-- Witness for the amended C6 at the concrete biographical page. -/
theorem C6_biographical_fallthrough_witness :
    getEventDetails "John Doe" bioFetch = genericEventResult bioPage :=
  C6_biographical_fallthrough "John Doe" bioFetch bioPage
    (by decide) (by decide) (by decide) (by decide)
